import Mathlib

/-!
Verification of the queue-processor core (processor.py, database.py) against its
specification.  The data model and operations below are shallow embeddings of the
Python source: dictionaries become association lists, `time.time()` becomes an
explicit `Nat` parameter, external collaborators (the completion service, thread
creation, the HTTP delete call, the Mongo driver) become oracle parameters, and a
raised exception becomes an explicit error value.
-/

namespace QueueProcessor

/-! ### String constants used by the source -/

def sBye : String := "bye"
def sExit : String := "exit"
def sEnd : String := "end"
def sComplete : String := "complete"
def sAbandon : String := "abandon"
def sCompleted : String := "completed"
def sError : String := "error"
def sProcessing : String := "processing"
def sSuccess : String := "success"
def sDefaultRequestType : String := "nl2sql_chat"
def sGoodbye : String := "Goodbye!"
def sGoodbyeEnded : String := "Goodbye! Your conversation has ended."
def sErrHead : String := "Error processing question: "
def sDeleteErrHead : String := "Error deleting assistant: "
def sNoAssistantId : String := "No assistant ID provided"
def sEmergencyFailed : String := "Failed to get an assistant for the user"
def sAlreadyDeleted : String := "Assistant already deleted or does not exist"
def sDeletedOk : String := "Assistant deleted successfully"
def sReleasedNotDeleted : String := "Assistant released (not deleted because it is in the pool)"

/-! ### Association lists (Python `dict` with insertion order) -/

def lookupKey (k : String) : List (String × α) → Option α
  | [] => none
  | (k', v) :: rest => if k' = k then some v else lookupKey k rest

def eraseKey (k : String) : List (String × α) → List (String × α)
  | [] => []
  | (k', v) :: rest => if k' = k then eraseKey k rest else (k', v) :: eraseKey k rest

def putKey (k : String) (v : α) : List (String × α) → List (String × α)
  | [] => [(k, v)]
  | (k', v') :: rest => if k' = k then (k, v) :: rest else (k', v') :: putKey k v rest

/-- `d[k] = f d[k]` on an existing key; absent keys are left untouched (the
source always guards these mutations with `if k in d`). -/
def modifyKey (k : String) (f : α → α) : List (String × α) → List (String × α)
  | [] => []
  | (k', v) :: rest =>
    if k' = k then (k', f v) :: modifyKey k f rest else (k', v) :: modifyKey k f rest

/-! ### Data model

`SlotInfo` is one entry of `assistant_assignments`
(`{user_email, thread_id, last_used, in_use}`); `CacheEntry` is one entry of
`thread_cache` (`{assistant_id, thread_id, created_at}`). -/

structure SlotInfo where
  user_email : Option String
  thread_id : Option String
  last_used : Option Nat
  in_use : Bool
deriving DecidableEq, Repr

structure CacheEntry where
  assistant_id : String
  thread_id : String
  created_at : Nat
deriving DecidableEq, Repr

/-- The in-memory pool state: `assistant_pool` (list of ids),
`assistant_assignments` (id → SlotInfo) and `thread_cache` (email → CacheEntry). -/
structure PoolState where
  assistant_pool : List String
  assistant_assignments : List (String × SlotInfo)
  thread_cache : List (String × CacheEntry)
deriving DecidableEq, Repr

/-- `THREAD_LIFETIME_SECONDS` with the default `THREAD_LIFETIME_HOURS = 24`. -/
def THREAD_LIFETIME_SECONDS : Nat := 24 * 3600

/-- `BULK_INSERT_THRESHOLD = 10`. -/
def BULK_INSERT_THRESHOLD : Nat := 10

/-! ### Pool operations (processor.py lines 182-313) -/

/-- The thread-cache phase of `get_available_assistant` (lines 193-214): a valid
cached entry is returned after stamping `last_used`; an expired entry is deleted
and the call falls through to pool acquisition. -/
def threadCacheCheck (now : Nat) (user_email : Option String) (s : PoolState) :
    Option (String × String) × PoolState :=
  match user_email with
  | none => (none, s)
  | some e =>
    match lookupKey e s.thread_cache with
    | none => (none, s)
    | some entry =>
      if THREAD_LIFETIME_SECONDS < now - entry.created_at then
        (none, { s with thread_cache := eraseKey e s.thread_cache })
      else
        let asg := modifyKey entry.assistant_id
          (fun v => { v with last_used := some now }) s.assistant_assignments
        (some (entry.assistant_id, entry.thread_id),
         { s with assistant_assignments := asg })

/-- The least-recently-used scan of `get_available_assistant` (lines 231-239):
minimal non-`None` `last_used` over the whole pool, first slot winning ties. -/
def lruSelect (s : PoolState) : Option String :=
  (s.assistant_pool.foldl (fun best aid =>
      match lookupKey aid s.assistant_assignments with
      | none => best
      | some info =>
        match info.last_used with
        | none => best
        | some t =>
          match best with
          | none => some (aid, t)
          | some (b, bt) => if t < bt then some (aid, t) else some (b, bt)) none).map
    Prod.fst

/-- The pool-acquisition phase of `get_available_assistant` (lines 217-262):
first unassigned slot, else LRU eviction, else the emergency assistant created
outside the pool (`emergency` is the outcome of that external creation; a
`RuntimeError` is raised when it fails). -/
def poolAcquire (now : Nat) (emergency : Except String String)
    (user_email : Option String) (s : PoolState) :
    Except String (String × Option String × Bool) × PoolState :=
  match s.assistant_pool.find? (fun aid =>
      match lookupKey aid s.assistant_assignments with
      | some info => !info.in_use
      | none => false) with
  | some aid =>
    let asg := modifyKey aid (fun _ => ⟨user_email, none, some now, true⟩)
      s.assistant_assignments
    (.ok (aid, none, true), { s with assistant_assignments := asg })
  | none =>
    match lruSelect s with
    | some aid =>
      let asg := modifyKey aid (fun _ => ⟨user_email, none, some now, true⟩)
        s.assistant_assignments
      (.ok (aid, none, true), { s with assistant_assignments := asg })
    | none =>
      match emergency with
      | .ok eid => (.ok (eid, none, true), s)
      | .error _ => (.error sEmergencyFailed, s)

/-- `get_available_assistant` (lines 182-262). -/
def get_available_assistant (now : Nat) (emergency : Except String String)
    (user_email : Option String) (s : PoolState) :
    Except String (String × Option String × Bool) × PoolState :=
  match threadCacheCheck now user_email s with
  | (some (aid, tid), s') => (.ok (aid, some tid, false), s')
  | (none, s') => poolAcquire now emergency user_email s'

/-- `update_thread_assignment` (lines 264-287). -/
def update_thread_assignment (now : Nat) (assistant_id thread_id user_email : String)
    (s : PoolState) : PoolState :=
  let asg := modifyKey assistant_id
    (fun v => { v with thread_id := some thread_id, last_used := some now })
    s.assistant_assignments
  { s with assistant_assignments := asg,
           thread_cache := putKey user_email ⟨assistant_id, thread_id, now⟩ s.thread_cache }

/-- Remove the first thread-cache entry pointing at `assistant_id`
(the `break`-terminated loop in lines 308-313). -/
def eraseFirstByAssistant (assistant_id : String) :
    List (String × CacheEntry) → List (String × CacheEntry)
  | [] => []
  | (e, info) :: rest =>
    if info.assistant_id = assistant_id then rest
    else (e, info) :: eraseFirstByAssistant assistant_id rest

/-- `release_assistant` (lines 289-313). -/
def release_assistant (now : Nat) (assistant_id : String) (s : PoolState) : PoolState :=
  if (lookupKey assistant_id s.assistant_assignments).isSome then
    let asg := modifyKey assistant_id (fun _ => ⟨none, none, some now, false⟩)
      s.assistant_assignments
    { s with assistant_assignments := asg,
             thread_cache := eraseFirstByAssistant assistant_id s.thread_cache }
  else s

/-! ### Batch write buffer (processor.py lines 537-567, database.py lines 445-461) -/

/-- One buffered conversation document (lines 674-686). -/
structure ConvDoc where
  request_id : String
  question : String
  answer : String
  user_email : Option String
  assistant_id : Option String
  thread_id : Option String
  report_name : Option String
  request_type : Option String
  conversation_id : Option String
  created_at : Nat
  updated_at : Nat
deriving DecidableEq, Repr

/-- Durable-store outcomes for a flush: whether `bulk_store_conversations`
raises, and which per-record `store_conversation` fallback writes raise. -/
structure FlushOracle where
  bulkFails : Bool
  individualFails : String → Bool

/-- What a flush did: how many records went into the bulk insert, whether it
succeeded, and how the per-record fallback went. -/
structure FlushLog where
  bulkSubmitted : Nat
  bulkOk : Bool
  individualOk : Nat
  individualDropped : Nat
deriving DecidableEq, Repr

/-- `maybe_flush_conversation_batch` (lines 537-567).  The snapshot-and-clear
happens when `force` or the threshold is reached; a failed bulk insert falls
back to individual writes, individually-failing records being logged and
dropped.  The Python function has no `return` statement, so every path returns
`None`: the third component is always `none`. -/
def maybe_flush_conversation_batch (force : Bool) (fo : FlushOracle)
    (pending : List ConvDoc) : FlushLog × List ConvDoc × Option Nat :=
  if force || BULK_INSERT_THRESHOLD ≤ pending.length then
    let snap := pending
    if snap.isEmpty then (⟨0, true, 0, 0⟩, [], none)
    else if fo.bulkFails then
      let ok := (snap.filter (fun c => !(fo.individualFails c.request_id))).length
      let dropped := (snap.filter (fun c => fo.individualFails c.request_id)).length
      (⟨snap.length, false, ok, dropped⟩, [], none)
    else (⟨snap.length, true, 0, 0⟩, [], none)
  else (⟨0, true, 0, 0⟩, pending, none)

/-! ### Question processing (processor.py lines 466-742) -/

/-- Outcome of the raw HTTP DELETE in `delete_assistant` (lines 487-527). -/
inductive DeleteHttp where
  | notFound
  | okCode
  | badCode (msg : String)
  | raised (msg : String)
deriving DecidableEq, Repr

/-- External-collaborator outcomes consumed by one `process_question` run. -/
structure QOracle where
  /-- `initialize_assistant(DATABASE_TYPE, assistant_id=...)` raises
  `openai.NotFoundError` (line 621). -/
  initNotFound : Bool
  /-- id of the thread returned by `create_thread` (line 644). -/
  newThreadId : String
  /-- `create_response` (line 660): answer, or the raised exception's text. -/
  createResponse : Except String String
  /-- HTTP outcome of deleting a non-pool assistant. -/
  deleteHttp : DeleteHttp
  /-- outcome of creating the emergency assistant outside the pool (line 258). -/
  emergency : Except String String
  /-- same, for the replacement acquisition in the NotFound branch (line 635). -/
  emergency2 : Except String String

/-- The result dict returned by `process_question` / `delete_assistant`. -/
structure QResult where
  status : String
  message : Option String
  response : Option String
  assistant_id : Option String
  thread_id : Option String
deriving DecidableEq, Repr

/-- Tracked side effects of one `process_message` run: every
`update_request_status(request_id, status, result)` attempt, and whether
`create_response` (the completion service) was invoked. -/
structure MLog where
  statusWrites : List (String × String × Option QResult)
  completionCalled : Bool
deriving DecidableEq, Repr

/-- Python truthiness of an optional string (`if x:`). -/
def truthy : Option String → Bool
  | none => false
  | some v => !(v = "")

/-- Split on whitespace, mirroring `question.lower().split()` for the purpose
of the membership test (runs of whitespace only add empty tokens, which cannot
equal any of the trigger words). -/
def wsSplit : List Char → List Char → List (List Char)
  | [], acc => [acc.reverse]
  | c :: rest, acc =>
    if c.isWhitespace then acc.reverse :: wsSplit rest []
    else wsSplit rest (c :: acc)

/-- `any(word in question.lower().split() for word in ["bye", "exit", "end"])`
(line 581). -/
def isTermination (question : String) : Bool :=
  let toks := wsSplit (question.toList.map Char.toLower) []
  toks.contains sBye.toList || toks.contains sExit.toList || toks.contains sEnd.toList

/-- `delete_assistant` (lines 466-535): pool members are released rather than
deleted; others are deleted over HTTP, a 404 or 2xx being success and anything
else (or a raised exception) an error result. -/
def delete_assistant (now : Nat) (o : QOracle) (assistant_id : Option String)
    (p : PoolState) : QResult × PoolState :=
  if !(truthy assistant_id) then
    (⟨sError, some sNoAssistantId, none, none, none⟩, p)
  else
    match assistant_id with
    | none => (⟨sError, some sNoAssistantId, none, none, none⟩, p)
    | some aid =>
      if aid ∈ p.assistant_pool then
        (⟨sSuccess, some sReleasedNotDeleted, none, none, none⟩,
         release_assistant now aid p)
      else
        match o.deleteHttp with
        | .notFound => (⟨sSuccess, some sAlreadyDeleted, none, none, none⟩, p)
        | .okCode => (⟨sSuccess, some sDeletedOk, none, none, none⟩, p)
        | .badCode m =>
          (⟨sError, some (sDeleteErrHead ++ m), none, assistant_id, none⟩, p)
        | .raised m =>
          (⟨sError, some (sDeleteErrHead ++ m), none, assistant_id, none⟩, p)

/-- The error result built by the outer `except` of `process_question`
(lines 734-742). -/
def qOuterError (msg : String) (assistant_id : Option String) : QResult :=
  ⟨sError, some (sErrHead ++ msg), none, assistant_id, none⟩

/-- The tail of `process_question` from the `create_response` call on
(lines 653-732): on success the conversation is buffered, a threshold flush may
run and `last_used` is stamped; on an exception the newly-created thread's slot
is made available again (`in_use := false`, `thread_id := None` — `user_email`
is kept) and the matching cache entry dropped. -/
def qCompletionStep (now : Nat) (o : QOracle) (fo : FlushOracle)
    (request_id question : String) (assistant_id : Option String) (thread_id : String)
    (user_email : Option String) (request_type report_name : Option String)
    (new_thread_created : Bool) (p : PoolState) (pending : List ConvDoc) (log : MLog) :
    QResult × PoolState × List ConvDoc × MLog :=
  let log := { log with completionCalled := true }
  match o.createResponse with
  | .ok answer =>
    let doc : ConvDoc :=
      ⟨request_id, question, answer, user_email, assistant_id, some thread_id,
       report_name, request_type, none, now, now⟩
    let pending1 := pending ++ [doc]
    let (_, pending2, _) := maybe_flush_conversation_batch false fo pending1
    let p1 :=
      match assistant_id with
      | some aid =>
        let asg := modifyKey aid (fun v => { v with last_used := some now })
          p.assistant_assignments
        { p with assistant_assignments := asg }
      | none => p
    (⟨sSuccess, none, some answer, assistant_id, some thread_id⟩, p1, pending2, log)
  | .error m =>
    let p1 :=
      if new_thread_created then
        let p' :=
          match assistant_id with
          | some aid =>
            let asg := modifyKey aid
              (fun v => { v with in_use := false, thread_id := none })
              p.assistant_assignments
            { p with assistant_assignments := asg }
          | none => p
        match user_email with
        | some e =>
          match lookupKey e p'.thread_cache with
          | some entry =>
            if entry.thread_id = thread_id then
              { p' with thread_cache := eraseKey e p'.thread_cache }
            else p'
          | none => p'
        | none => p'
      else p
    (⟨sError, some (sErrHead ++ m), none, assistant_id, none⟩, p1, pending, log)

/-- The thread-creation step (lines 642-651): create a thread when none is at
hand and record the assignment when a caller identity is known. -/
def qThreadStep (now : Nat) (o : QOracle) (fo : FlushOracle)
    (request_id question : String) (assistant_id : Option String)
    (thread_id : Option String) (user_email : Option String)
    (request_type report_name : Option String) (new_thread_created : Bool)
    (p : PoolState) (pending : List ConvDoc) (log : MLog) :
    QResult × PoolState × List ConvDoc × MLog :=
  if truthy thread_id then
    qCompletionStep now o fo request_id question assistant_id (thread_id.getD ("") )
      user_email request_type report_name new_thread_created p pending log
  else
    let tid := o.newThreadId
    let p1 :=
      match user_email, assistant_id with
      | some e, some aid => update_thread_assignment now aid tid e p
      | _, _ => p
    let p1 := if truthy user_email then p1 else p
    qCompletionStep now o fo request_id question assistant_id tid user_email
      request_type report_name true p1 pending log

/-- `process_question` (lines 569-742).  Termination words short-circuit before
any acquisition or completion call; otherwise an assistant is acquired when the
message carried neither ids, the (possibly replaced) assistant is initialized, a
thread is created if needed and the completion call runs. -/
def process_question (now : Nat) (o : QOracle) (fo : FlushOracle)
    (request_id question : String)
    (assistant_id0 thread_id0 user_email : Option String)
    (request_type report_name : Option String)
    (p : PoolState) (pending : List ConvDoc) (log : MLog) :
    QResult × PoolState × List ConvDoc × MLog :=
  if isTermination question then
    if truthy assistant_id0 then
      match assistant_id0 with
      | some aid =>
        if aid ∈ p.assistant_pool then
          let p1 := release_assistant now aid p
          let p2 :=
            match user_email with
            | some e => { p1 with thread_cache := eraseKey e p1.thread_cache }
            | none => p1
          (⟨sSuccess, some sGoodbyeEnded, none, none, none⟩, p2, pending, log)
        else
          let (r, p1) := delete_assistant now o assistant_id0 p
          (r, p1, pending, log)
      | none => (⟨sSuccess, some sGoodbye, none, none, none⟩, p, pending, log)
    else (⟨sSuccess, some sGoodbye, none, none, none⟩, p, pending, log)
  else
    -- acquisition (lines 613-615)
    let acq :
        Except String ((Option String × Option String × Bool) × PoolState) :=
      if !(truthy assistant_id0) && !(truthy thread_id0) && truthy user_email then
        match get_available_assistant now o.emergency user_email p with
        | (.ok (aid, tid, isNew), p') => .ok ((some aid, tid, isNew), p')
        | (.error m, _) => .error m
      else .ok ((assistant_id0, thread_id0, false), p)
    match acq with
    | .error m => (qOuterError m none, p, pending, log)
    | .ok ((aid1, tid1, newT1), p1) =>
      -- initialize_assistant, with the NotFound replacement branch (lines 617-640)
      let afterInit :
          Except (String × Option String)
            ((Option String × Option String × Bool) × PoolState) :=
        if o.initNotFound then
          let p2 :=
            match aid1 with
            | some aid =>
              if aid ∈ p1.assistant_pool then
                { p1 with
                  assistant_pool := p1.assistant_pool.erase aid,
                  assistant_assignments := eraseKey aid p1.assistant_assignments }
              else p1
            | none => p1
          match get_available_assistant now o.emergency2 user_email p2 with
          | (.ok (aid, tid, isNew), p3) => .ok ((some aid, tid, isNew), p3)
          | (.error m, _) => .error (m, none)
        else .ok ((aid1, tid1, newT1), p1)
      match afterInit with
      | .error (m, aid) => (qOuterError m aid, p, pending, log)
      | .ok ((aid2, tid2, newT2), p2) =>
        qThreadStep now o fo request_id question aid2 tid2 user_email
          request_type report_name newT2 p2 pending log

/-! ### Message processing (processor.py lines 744-845) -/

/-- A queue message body: either undecodable (not UTF-8 JSON — `json.loads`
raises) or a parsed JSON object with its optional fields. -/
inductive MsgBody where
  | invalid
  | parsed (request_id question assistant_id thread_id user_email
      request_type report_name : Option String)
deriving DecidableEq, Repr

/-- Disposition of one `process_message` call: the returned action, or an
exception escaping the handler (only the status write inside the `except`
block can raise past it). -/
inductive PMResult where
  | action (a : String)
  | raised
deriving DecidableEq, Repr

/-- Durable-store outcomes consumed by one `process_message` run. -/
structure MOracle where
  /-- `get_request_status`: the persisted status field, or a raised error. -/
  statusRead : Except Unit (Option String)
  /-- `update_request_status(request_id, "processing")`. -/
  writeProcessing : Except Unit Unit
  /-- the final `update_request_status(request_id, status, result)`. -/
  writeFinal : Except Unit Unit
  /-- the `update_request_status(request_id, "error", ...)` in the handler. -/
  writeError : Except Unit Unit
  q : QOracle
  /-- the threshold flush inside `process_question`. -/
  flush1 : FlushOracle
  /-- the forced flush in the `finally` block. -/
  flush2 : FlushOracle

/-- Worker-side state shared across `process_message` calls. -/
structure ProcState where
  active_requests : List (String × Nat)
  pool : PoolState
  pending : List ConvDoc
deriving Repr

/-- The `finally` block (lines 837-845): drop the in-flight marker when this
call claimed it, then force-flush the conversation buffer. -/
def pmFinally (o : MOracle) (res : PMResult) (processing_started : Bool)
    (request_id : Option String) (s : ProcState) (log : MLog) :
    PMResult × ProcState × MLog :=
  let active :=
    if processing_started && truthy request_id then
      match request_id with
      | some rid => eraseKey rid s.active_requests
      | none => s.active_requests
    else s.active_requests
  let (_, pending', _) := maybe_flush_conversation_batch true o.flush2 s.pending
  (res, ⟨active, s.pool, pending'⟩, log)

/-- The `except` block (lines 823-835): persist an error status when a
request id was parsed, then signal abandon; a failure of that very status
write escapes the handler (after the `finally` block still runs). -/
def pmExcept (o : MOracle) (request_id : Option String) (processing_started : Bool)
    (s : ProcState) (log : MLog) : PMResult × ProcState × MLog :=
  if truthy request_id then
    match request_id with
    | some rid =>
      let log1 := { log with statusWrites := log.statusWrites ++ [(rid, sError, none)] }
      match o.writeError with
      | .ok _ => pmFinally o (.action sAbandon) processing_started request_id s log1
      | .error _ => pmFinally o .raised processing_started request_id s log1
    | none => pmFinally o (.action sAbandon) processing_started request_id s log
  else pmFinally o (.action sAbandon) processing_started request_id s log

/-- `process_message` (lines 744-845). -/
def process_message (now : Nat) (o : MOracle) (msg : MsgBody) (s : ProcState) :
    PMResult × ProcState × MLog :=
  let log0 : MLog := ⟨[], false⟩
  match msg with
  | .invalid => pmExcept o none false s log0
  | .parsed rid0 q0 aid tid email rtype rname =>
    if !(truthy rid0 && truthy q0) then
      pmFinally o (.action sComplete) false rid0 s log0
    else
      match rid0, q0 with
      | some rid, some q =>
        if (lookupKey rid s.active_requests).isSome then
          pmFinally o (.action sComplete) false (some rid) s log0
        else
          let s1 : ProcState :=
            { s with active_requests := putKey rid now s.active_requests }
          match o.statusRead with
          | .error _ => pmExcept o (some rid) true s1 log0
          | .ok st =>
            if st = some sCompleted || st = some sError then
              let s2 : ProcState :=
                { s1 with active_requests := eraseKey rid s1.active_requests }
              pmFinally o (.action sComplete) true (some rid) s2 log0
            else
              let log1 : MLog :=
                { log0 with statusWrites := log0.statusWrites ++ [(rid, sProcessing, none)] }
              match o.writeProcessing with
              | .error _ => pmExcept o (some rid) true s1 log1
              | .ok _ =>
                let (qres, pool', pending', log2) :=
                  process_question now o.q o.flush1 rid q aid tid email
                    (some (rtype.getD sDefaultRequestType)) rname s1.pool s1.pending log1
                let status := if qres.status = sSuccess then sCompleted else sError
                let log3 : MLog :=
                  { log2 with statusWrites := log2.statusWrites ++ [(rid, status, some qres)] }
                let s3 : ProcState := ⟨s1.active_requests, pool', pending'⟩
                match o.writeFinal with
                | .error _ => pmExcept o (some rid) true s3 log3
                | .ok _ => pmFinally o (.action sComplete) true (some rid) s3 log3
      | _, _ => pmFinally o (.action sComplete) false rid0 s log0

/-! ### The retrying persistence client (database.py lines 127-151)

`@backoff.on_exception(...)` is applied to `db_operation_with_retry` — the
decorator factory — so the backoff loop guards only the act of decorating a
function (which cannot raise a database error); the wrapper the factory returns
performs a single attempt and re-raises every exception unchanged. -/

inductive DBErr where
  | connectionFailure
  | serverSelectionTimeout
  | operationFailure
  | otherErr
deriving DecidableEq, Repr

/-- The exception tuple given to `backoff.on_exception` (line 130). -/
def retryableErr : DBErr → Bool
  | .connectionFailure => true
  | .serverSelectionTimeout => true
  | .operationFailure => true
  | .otherErr => false

/-- `backoff.on_exception(backoff.expo, ..., max_tries=n)` around a call whose
behaviour on attempt `k` is `op k`: retry on listed exception classes while
tries remain (the 30-second total-time cap is not modelled; it never binds
before the attempt cap in the claims below). -/
def backoffRun (retryable : DBErr → Bool) (op : Nat → Except DBErr α) :
    Nat → Nat → Except DBErr α
  | 0, k => op k
  | t + 1, k =>
    match op k with
    | .ok a => .ok a
    | .error e =>
      if retryable e && decide (0 < t) then backoffRun retryable op t (k + 1)
      else .error e

def backoffOnException (retryable : DBErr → Bool) (maxTries : Nat)
    (op : Nat → Except DBErr α) : Except DBErr α :=
  backoffRun retryable op maxTries 0

/-- The inner `wrapper` (lines 139-151): call the operation, log, and re-raise
every exception unchanged. -/
def db_wrapper (op : Nat → Except DBErr α) (k : Nat) : Except DBErr α :=
  match op k with
  | .ok a => .ok a
  | .error e => .error e

/-- `db_operation_with_retry` as the source composes it: the backoff loop wraps
the decoration call `db_operation_with_retry(func)` itself, which merely builds
and returns `wrapper` and cannot raise, so the operation that callers invoke is
the bare single-attempt `wrapper`. -/
def db_operation_with_retry (op : Nat → Except DBErr α) : Nat → Except DBErr α :=
  match backoffOnException retryableErr 5 (fun _ => Except.ok (db_wrapper op)) with
  | .ok w => w
  | .error _ => db_wrapper op

/-- Calling a decorated store operation such as `update_request_status`
(lines 224-254): one invocation of the decorated function, starting at
attempt 0. -/
def update_request_status_call (op : Nat → Except DBErr α) : Except DBErr α :=
  db_operation_with_retry op 0

/-! ### Shared fixtures and helper lemmas -/

def emptyStr : String := ""
def ridW : String := "r1"
def thNew : String := "th-new"
def ansW : String := "the answer"
def emW : String := "em"

/-- A store operation that raises a transient `ConnectionFailure` on its first
attempt and succeeds on any later one. -/
def flakyWrite : Nat → Except DBErr Unit :=
  fun k => if k = 0 then .error .connectionFailure else .ok ()

theorem filter_length_partition (p : α → Bool) (l : List α) :
    (l.filter (fun a => !(p a))).length + (l.filter p).length = l.length := by
  induction l with
  | nil => rfl
  | cons a rest ih =>
    cases hpa : p a with
    | true => simp [List.filter_cons, hpa]; omega
    | false => simp [List.filter_cons, hpa]; omega

/-- A concrete conversation record used by counterexamples and witnesses. -/
def cDoc : ConvDoc := ⟨"r1", "q", "a", none, none, none, none, none, none, 0, 0⟩

/-- A flush oracle on which every write succeeds. -/
def foOk : FlushOracle := ⟨false, fun _ => false⟩

/-- A question-processing oracle on which every external call succeeds. -/
def qoOk : QOracle := ⟨false, thNew, .ok ansW, .okCode, .ok emW, .ok emW⟩

/-- A message-processing oracle on which every store call succeeds and the
request has no persisted status yet. -/
def moOk : MOracle := ⟨.ok none, .ok (), .ok (), .ok (), qoOk, foOk, foOk⟩

/-- An empty worker state. -/
def sEmptyState : ProcState := ⟨[], ⟨[], [], []⟩, []⟩

def uU : String := "u"
def thA : String := "th1"
def idA1 : String := "a1"
def idA2 : String := "a2"
def helloS : String := "hello"
def boomS : String := "boom"
def extA : String := "ext1"

/-- A question oracle whose non-pool HTTP delete raises. -/
def qoDeleteFails : QOracle := ⟨false, thNew, .ok ansW, .raised boomS, .ok emW, .ok emW⟩

/-- A question oracle whose completion call (`create_response`) raises. -/
def qoRespFails : QOracle := ⟨false, thNew, .error boomS, .okCode, .ok emW, .ok emW⟩

/-- A message oracle whose completion call raises but whose store succeeds. -/
def moRespFails : MOracle := ⟨.ok none, .ok (), .ok (), .ok (), qoRespFails, foOk, foOk⟩

/-- A one-slot pool whose slot is free. -/
def poolFresh : PoolState := ⟨[idA1], [(idA1, ⟨none, none, none, false⟩)], []⟩

def sFresh : ProcState := ⟨[], poolFresh, []⟩

/-- The pool state after `uU` freshly acquires `idA1` from `poolFresh` at
time 7. -/
def p1W : PoolState := ⟨[idA1], [(idA1, ⟨some uU, none, some 7, true⟩)], []⟩

/-- An unassigned pool slot as created at pool initialization. -/
def freshSlot : SlotInfo := ⟨none, none, none, false⟩

/-- A capacity-2 pool, both slots unassigned (Scenario A's starting point). -/
def poolTwo : PoolState := ⟨[idA1, idA2], [(idA1, freshSlot), (idA2, freshSlot)], []⟩

/-- Scenario A, first two requests: caller `c1` acquires at `t1` and registers
thread `th1`, then caller `c2` acquires at `t2` and registers thread `th2`. -/
def scenarioAState (c1 c2 th1 th2 : String) (t1 t2 : Nat) : PoolState :=
  let s1 := (get_available_assistant t1 (.ok emW) (some c1) poolTwo).2
  let s2 := update_thread_assignment t1 idA1 th1 c1 s1
  let s3 := (get_available_assistant t2 (.ok emW) (some c2) s2).2
  update_thread_assignment t2 idA2 th2 c2 s3

def cAlice : String := "alice"
def cBob : String := "bob"
def cCarol : String := "carol"

/-- A one-slot pool in which caller `uU` holds slot `idA1` with a valid cached
thread created at time 5. -/
def poolC9 : PoolState :=
  ⟨[idA1], [(idA1, ⟨some uU, some thA, some 5, true⟩)], [(uU, ⟨idA1, thA, 5⟩)]⟩

def sC9 : ProcState := ⟨[], poolC9, []⟩

/-- A pool in which caller `uU` holds slot `idA1` and has a cache entry
created at time 0. -/
def poolW : PoolState :=
  ⟨[idA1, idA2],
   [(idA1, ⟨some uU, some thA, some 5, true⟩), (idA2, ⟨none, none, none, false⟩)],
   [(uU, ⟨idA1, thA, 0⟩)]⟩

/-! ### Pool-operation traces (for the exclusive-assignment invariant)

A trace interleaves the three pool-mutating calls of the source:
`get_available_assistant`, `update_thread_assignment` and `release_assistant`
(each carrying the `time.time()` of the call). -/

inductive PoolOp where
  | acquire (now : Nat) (email : String)
  | updateThread (now : Nat) (assistant_id thread_id email : String)
  | release (now : Nat) (assistant_id : String)
deriving DecidableEq, Repr

/-- Apply one pool operation.  The emergency-assistant outcome never touches
the in-memory pool state, so a fixed successful one is supplied. -/
def applyOp (s : PoolState) : PoolOp → PoolState
  | .acquire now e => (get_available_assistant now (.ok emW) (some e) s).2
  | .updateThread now a t e => update_thread_assignment now a t e s
  | .release now a => release_assistant now a s

def runOps (s : PoolState) : List PoolOp → PoolState
  | [] => s
  | op :: rest => runOps (applyOp s op) rest

/-- Two assignment entries conflict when both are `in_use` by the same
(non-null) caller. -/
def slotsConflict (p q : String × SlotInfo) : Bool :=
  p.2.in_use && q.2.in_use && p.2.user_email.isSome &&
    (p.2.user_email == q.2.user_email)

/-- No two distinct entries of the assignment table conflict. -/
def noConflicts : List (String × SlotInfo) → Bool
  | [] => true
  | p :: rest => rest.all (fun q => !slotsConflict p q) && noConflicts rest

/-- The spec's exclusive-assignment invariant: no caller holds two `in_use`
slots. -/
abbrev exclusiveAssignment (s : PoolState) : Prop :=
  noConflicts s.assistant_assignments = true

/-- Caller `e` has a present, unexpired thread-cache entry at `now`. -/
def cacheValidB (now : Nat) (e : String) (s : PoolState) : Bool :=
  match lookupKey e s.thread_cache with
  | none => false
  | some entry =>
    if THREAD_LIFETIME_SECONDS < now - entry.created_at then false else true

/-- No slot is currently `in_use` and assigned to caller `e`. -/
def noOwnedSlot (e : String) (s : PoolState) : Bool :=
  s.assistant_assignments.all fun p => !(p.2.in_use && p.2.user_email == some e)

/-- An acquisition is safe when it will be served from the cache or its caller
holds no in-use slot; updates and releases are always safe. -/
def safeOp (s : PoolState) : PoolOp → Bool
  | .acquire now e => cacheValidB now e s || noOwnedSlot e s
  | .updateThread _ _ _ _ => true
  | .release _ _ => true

def safeTrace (s : PoolState) : List PoolOp → Bool
  | [] => true
  | op :: rest => safeOp s op && safeTrace (applyOp s op) rest

/-! ### Association-list facts -/

theorem lookupKey_eraseKey_self (k : String) (l : List (String × α)) :
    lookupKey k (eraseKey k l) = none := by
  induction l with
  | nil => rfl
  | cons p rest ih =>
    obtain ⟨k', v⟩ := p
    by_cases h : k' = k
    · simp [eraseKey, h, ih]
    · simp [eraseKey, lookupKey, h, ih]

theorem eraseKey_of_lookup_none (k : String) (l : List (String × α))
    (h : lookupKey k l = none) : eraseKey k l = l := by
  induction l with
  | nil => rfl
  | cons p rest ih =>
    obtain ⟨k', v⟩ := p
    by_cases hk : k' = k
    · simp [lookupKey, hk] at h
    · simp [lookupKey, hk] at h
      simp [eraseKey, hk, ih h]

theorem eraseKey_putKey_self (k : String) (v : α) (l : List (String × α))
    (h : lookupKey k l = none) : eraseKey k (putKey k v l) = l := by
  induction l with
  | nil => simp [putKey, eraseKey]
  | cons p rest ih =>
    obtain ⟨k', v'⟩ := p
    by_cases hk : k' = k
    · simp [lookupKey, hk] at h
    · simp [lookupKey, hk] at h
      simp [putKey, eraseKey, hk, ih h]

theorem lookupKey_putKey_self (k : String) (v : α) (l : List (String × α)) :
    lookupKey k (putKey k v l) = some v := by
  induction l with
  | nil => simp [putKey, lookupKey]
  | cons p rest ih =>
    obtain ⟨k', v'⟩ := p
    by_cases hk : k' = k
    · simp [putKey, lookupKey, hk]
    · simp [putKey, lookupKey, hk, ih]

theorem lookupKey_modifyKey_self (k : String) (f : α → α) (l : List (String × α)) :
    lookupKey k (modifyKey k f l) = (lookupKey k l).map f := by
  induction l with
  | nil => rfl
  | cons p rest ih =>
    obtain ⟨k', v⟩ := p
    by_cases h : k' = k
    · simp [modifyKey, lookupKey, h]
    · simp [modifyKey, lookupKey, h, ih]

theorem map_fst_modifyKey (k : String) (f : α → α) (l : List (String × α)) :
    (modifyKey k f l).map Prod.fst = l.map Prod.fst := by
  induction l with
  | nil => rfl
  | cons p rest ih =>
    obtain ⟨k', v⟩ := p
    by_cases h : k' = k
    · simp [modifyKey, h, ih]
    · simp [modifyKey, h, ih]

theorem modifyKey_eq_map (k : String) (f : α → α) (l : List (String × α)) :
    modifyKey k f l = l.map fun p => if p.1 = k then (p.1, f p.2) else p := by
  induction l with
  | nil => rfl
  | cons p rest ih =>
    obtain ⟨k', v⟩ := p
    by_cases h : k' = k
    · simp [modifyKey, h, ih]
    · simp [modifyKey, h, ih]

/-! ### State-component frame facts for the pool operations -/

theorem threadCacheCheck_pool_inv (now : Nat) (u : Option String) (s : PoolState) :
    (threadCacheCheck now u s).2.assistant_pool = s.assistant_pool := by
  cases u with
  | none => rfl
  | some e =>
    simp only [threadCacheCheck]
    cases lookupKey e s.thread_cache with
    | none => rfl
    | some entry =>
      by_cases h : THREAD_LIFETIME_SECONDS < now - entry.created_at <;> simp [h]

theorem poolAcquire_pool_inv (now : Nat) (em : Except String String)
    (u : Option String) (s : PoolState) :
    (poolAcquire now em u s).2.assistant_pool = s.assistant_pool := by
  simp only [poolAcquire]
  cases s.assistant_pool.find? fun aid =>
      match lookupKey aid s.assistant_assignments with
      | some info => !info.in_use
      | none => false with
  | some aid => rfl
  | none =>
    cases lruSelect s with
    | some aid => rfl
    | none => cases em with
      | ok eid => rfl
      | error m => rfl

theorem update_thread_assignment_pool_inv (now : Nat) (a t e : String)
    (s : PoolState) :
    (update_thread_assignment now a t e s).assistant_pool = s.assistant_pool := rfl

theorem get_available_assistant_pool_inv (now : Nat) (em : Except String String)
    (u : Option String) (s : PoolState) :
    (get_available_assistant now em u s).2.assistant_pool = s.assistant_pool := by
  simp only [get_available_assistant]
  rcases h : threadCacheCheck now u s with ⟨r, s'⟩
  have hp : s'.assistant_pool = s.assistant_pool := by
    have := threadCacheCheck_pool_inv now u s
    rw [h] at this
    exact this
  cases r with
  | none => simp [poolAcquire_pool_inv, hp]
  | some v => obtain ⟨aid, tid⟩ := v; simp [hp]

/-! ### C2 — the retrying persistence client -/

/-- Claim C2: the spec claims every durable-store operation retries transient
connectivity errors with exponential backoff (5 tries / 30 s) before the error
propagates.  In the code, `@backoff.on_exception` decorates the decorator
factory `db_operation_with_retry` itself, not the wrapper it returns, so a
decorated operation such as `update_request_status` performs exactly one
attempt: a first-attempt `ConnectionFailure` propagates immediately, while the
intended backoff semantics (`backoffOnException` with the same parameters)
would have retried and succeeded. -/
theorem db_retry_decorator_misapplied :
    update_request_status_call flakyWrite = .error .connectionFailure ∧
    backoffOnException retryableErr 5 flakyWrite = .ok () := ⟨rfl, rfl⟩

/-! ### C7 — batch flush totality -/

/-- Claim C7 (amended): a forced flush empties the buffer and either hands every
buffered record to the bulk write or, when the bulk write fails, attempts every
record individually (stored plus explicitly dropped records summing to the
buffered count) — but the call returns `None`, not the flushed count. -/
theorem maybe_flush_force_totality (fo : FlushOracle) (pending : List ConvDoc) :
    (maybe_flush_conversation_batch true fo pending).2.1 = [] ∧
    (if (maybe_flush_conversation_batch true fo pending).1.bulkOk then
        (maybe_flush_conversation_batch true fo pending).1.bulkSubmitted
      else
        (maybe_flush_conversation_batch true fo pending).1.individualOk +
          (maybe_flush_conversation_batch true fo pending).1.individualDropped)
      = pending.length ∧
    (maybe_flush_conversation_batch true fo pending).2.2 = none := by
  by_cases hemp : pending.isEmpty
  · have hnil : pending = [] := List.isEmpty_iff.mp hemp
    subst hnil
    simp [maybe_flush_conversation_batch]
  · by_cases hb : fo.bulkFails
    · have hp := filter_length_partition
        (fun c => fo.individualFails c.request_id) pending
      simp only at hp
      simp [maybe_flush_conversation_batch, hemp, hb]
      omega
    · simp [maybe_flush_conversation_batch, hemp, hb]

/-- Claim C7 counterexample: flushing a one-record buffer flushes that record
(`bulkSubmitted = 1`) yet the call returns `None` — not the flushed count as an
int, contrary to the claim. -/
theorem maybe_flush_force_returns_none :
    (maybe_flush_conversation_batch true foOk [cDoc]).1.bulkSubmitted = 1 ∧
    (maybe_flush_conversation_batch true foOk [cDoc]).2.2 = none ∧
    (maybe_flush_conversation_batch true foOk [cDoc]).2.2 ≠
      some (maybe_flush_conversation_batch true foOk [cDoc]).1.bulkSubmitted := by
  refine ⟨rfl, rfl, ?_⟩
  intro h
  simp [maybe_flush_conversation_batch, foOk] at h

/-! ### C3 — poison-message handling -/

/-- Claim C3 (amended): a message whose body parses as JSON but lacks a (truthy)
`request_id` or `question` is acknowledged (`"complete"`), but a body that is
not decodable as UTF-8 JSON raises before the required-field check and is
abandoned (`"abandon"`) — returned to the queue, not discarded. -/
theorem process_message_invalid_dispositions
    (now : Nat) (o : MOracle) (s : ProcState)
    (rid0 q0 aid tid email rtype rname : Option String)
    (h : truthy rid0 = false ∨ truthy q0 = false) :
    (process_message now o (.parsed rid0 q0 aid tid email rtype rname) s).1
      = .action sComplete ∧
    (process_message now o .invalid s).1 = .action sAbandon := by
  constructor
  · have hg : (truthy rid0 && truthy q0) = false := by
      rcases h with h | h <;> simp [h]
    simp [process_message, hg, pmFinally]
  · simp [process_message, pmExcept, truthy, pmFinally]

/-- Witness for `process_message_invalid_dispositions` at a concrete
question-less message. -/
theorem process_message_invalid_dispositions_witness :
    (truthy (some ridW) = false ∨ truthy (none : Option String) = false) ∧
    ((process_message 0 moOk (.parsed (some ridW) none none none none none none)
        sEmptyState).1 = .action sComplete ∧
      (process_message 0 moOk .invalid sEmptyState).1 = .action sAbandon) :=
  ⟨Or.inr rfl,
   process_message_invalid_dispositions 0 moOk sEmptyState (some ridW) none
     none none none none none (Or.inr rfl)⟩

/-- Claim C3 counterexample: an undecodable body is abandoned, not acknowledged —
the claim's "never the retry disposition" fails on it. -/
theorem process_message_undecodable_abandons :
    (process_message 0 moOk .invalid sEmptyState).1 = .action sAbandon ∧
    (process_message 0 moOk .invalid sEmptyState).1 ≠ .action sComplete := by
  refine ⟨rfl, ?_⟩
  intro h
  have : sAbandon = sComplete := by
    have h' := h
    simp [process_message, pmExcept, truthy, pmFinally, moOk] at h'
    exact h'
  simp [sAbandon, sComplete] at this

/-! ### C8 — session TTL expiry is a pure cache eviction -/

/-- Claim C8: when a caller's cache entry satisfies `now - created_at >
THREAD_LIFETIME_SECONDS`, the cache phase of `get_available_assistant` deletes
that entry (the lookup then yields nothing), leaves `assistant_assignments`
entirely unchanged (the old slot's `user_email` and `in_use` are not cleared),
and the call proceeds to a fresh pool acquisition. -/
theorem thread_expiry_lazy_reclaim (now : Nat) (em : Except String String)
    (s : PoolState) (e : String) (entry : CacheEntry)
    (hl : lookupKey e s.thread_cache = some entry)
    (hexp : THREAD_LIFETIME_SECONDS < now - entry.created_at) :
    threadCacheCheck now (some e) s
      = (none, { s with thread_cache := eraseKey e s.thread_cache }) ∧
    lookupKey e (eraseKey e s.thread_cache) = none ∧
    ({ s with thread_cache := eraseKey e s.thread_cache } : PoolState).assistant_assignments
      = s.assistant_assignments ∧
    get_available_assistant now em (some e) s
      = poolAcquire now em (some e) { s with thread_cache := eraseKey e s.thread_cache } := by
  have h1 : threadCacheCheck now (some e) s
      = (none, { s with thread_cache := eraseKey e s.thread_cache }) := by
    simp [threadCacheCheck, hl, hexp]
  refine ⟨h1, lookupKey_eraseKey_self e s.thread_cache, rfl, ?_⟩
  simp [get_available_assistant, h1]

/-- Witness for `thread_expiry_lazy_reclaim`: caller `uU`'s entry, created at
time 0, is expired at `now = 90000` and the cache phase misses while the slot
table is untouched. -/
theorem thread_expiry_lazy_reclaim_witness :
    (lookupKey uU poolW.thread_cache = some ⟨idA1, thA, 0⟩ ∧
      THREAD_LIFETIME_SECONDS < 90000 - (⟨idA1, thA, 0⟩ : CacheEntry).created_at) ∧
    threadCacheCheck 90000 (some uU) poolW
      = (none, { poolW with thread_cache := eraseKey uU poolW.thread_cache }) ∧
    ({ poolW with thread_cache := eraseKey uU poolW.thread_cache } : PoolState).assistant_assignments
      = poolW.assistant_assignments :=
  ⟨⟨rfl, by decide⟩,
   (thread_expiry_lazy_reclaim 90000 (.ok emW) poolW uU ⟨idA1, thA, 0⟩ rfl
      (by decide)).1,
   (thread_expiry_lazy_reclaim 90000 (.ok emW) poolW uU ⟨idA1, thA, 0⟩ rfl
      (by decide)).2.2.1⟩

/-! ### C4 / C5 — idempotency claim lifecycle and status short-circuit -/

theorem lookup_active_pmFinally (o : MOracle) (res : PMResult) (rid : String)
    (s : ProcState) (log : MLog) (h : ¬(rid = "")) :
    lookupKey rid (pmFinally o res true (some rid) s log).2.1.active_requests
      = none := by
  simp [pmFinally, truthy, h, lookupKey_eraseKey_self]

theorem lookup_active_pmExcept (o : MOracle) (rid : String) (s : ProcState)
    (log : MLog) (h : ¬(rid = "")) :
    lookupKey rid (pmExcept o (some rid) true s log).2.1.active_requests
      = none := by
  cases hw : o.writeError with
  | ok u => simp [pmExcept, truthy, h, hw, lookup_active_pmFinally o _ rid _ _ h]
  | error u => simp [pmExcept, truthy, h, hw, lookup_active_pmFinally o _ rid _ _ h]

/-- Claim C4: a message whose `request_id` is already in `active_requests` is
acknowledged without any processing (no status write, no completion call) and
without touching the other worker's marker; and whenever `process_message`
itself claims a `request_id`, that id is absent from `active_requests` when the
call finishes — on the normal path, the duplicate-status short-circuit and
every exception path alike. -/
theorem process_message_claim_lifecycle (now : Nat) (o : MOracle) (s : ProcState)
    (rid q : String) (aid tid email rtype rname : Option String)
    (hr : ¬(rid = "")) (hq : ¬(q = "")) :
    ((lookupKey rid s.active_requests).isSome →
      (process_message now o (.parsed (some rid) (some q) aid tid email rtype rname) s).1
          = .action sComplete ∧
      (process_message now o (.parsed (some rid) (some q) aid tid email rtype rname) s).2.1.active_requests
          = s.active_requests ∧
      (process_message now o (.parsed (some rid) (some q) aid tid email rtype rname) s).2.2.statusWrites
          = [] ∧
      (process_message now o (.parsed (some rid) (some q) aid tid email rtype rname) s).2.2.completionCalled
          = false) ∧
    (lookupKey rid s.active_requests = none →
      lookupKey rid (process_message now o (.parsed (some rid) (some q) aid tid email rtype rname) s).2.1.active_requests
          = none) := by
  have hg : (truthy (some rid) && truthy (some q)) = true := by
    simp [truthy, hr, hq]
  constructor
  · intro hmem
    simp [process_message, hg, hmem, pmFinally]
  · intro hnone
    have hmem : (lookupKey rid s.active_requests).isSome = false := by
      simp [hnone]
    cases hsr : o.statusRead with
    | error e =>
      simp [process_message, hg, hmem, hsr, lookup_active_pmExcept o rid _ _ hr]
    | ok st =>
      by_cases hst : (st = some sCompleted || st = some sError) = true
      · simp [process_message, hg, hmem, hsr, hst,
          lookup_active_pmFinally o _ rid _ _ hr]
      · have hst' : (st = some sCompleted || st = some sError) = false := by
          simpa using hst
        cases hwp : o.writeProcessing with
        | error e =>
          simp [process_message, hg, hmem, hsr, hst', hwp,
            lookup_active_pmExcept o rid _ _ hr]
        | ok u =>
          cases hwf : o.writeFinal with
          | error e =>
            simp [process_message, hg, hmem, hsr, hst', hwp, hwf,
              lookup_active_pmExcept o rid _ _ hr]
          | ok u2 =>
            simp [process_message, hg, hmem, hsr, hst', hwp, hwf,
              lookup_active_pmFinally o _ rid _ _ hr]

/-- Witness for `process_message_claim_lifecycle`: for a fresh request id the
claim is made and then released by the time the call returns. -/
theorem process_message_claim_lifecycle_witness :
    (¬(ridW = "") ∧ ¬(helloS = "") ∧
      lookupKey ridW sEmptyState.active_requests = none) ∧
    lookupKey ridW
      (process_message 0 moOk
        (.parsed (some ridW) (some helloS) none none none none none)
        sEmptyState).2.1.active_requests = none := by
  refine ⟨⟨by decide, by decide, rfl⟩, ?_⟩
  exact (process_message_claim_lifecycle 0 moOk sEmptyState ridW helloS
    none none none none none (by decide) (by decide)).2 rfl

/-- Claim C5: a (well-formed, unclaimed) message whose request id already has
persisted status `completed` or `error` is acknowledged, its freshly-taken
claim is released (`active_requests` is restored), and neither the completion
service nor any status write is invoked. -/
theorem process_message_status_short_circuit (now : Nat) (o : MOracle)
    (s : ProcState) (rid q st : String) (aid tid email rtype rname : Option String)
    (hr : ¬(rid = "")) (hq : ¬(q = ""))
    (hnone : lookupKey rid s.active_requests = none)
    (hread : o.statusRead = .ok (some st))
    (hst : st = sCompleted ∨ st = sError) :
    (process_message now o (.parsed (some rid) (some q) aid tid email rtype rname) s).1
        = .action sComplete ∧
    (process_message now o (.parsed (some rid) (some q) aid tid email rtype rname) s).2.1.active_requests
        = s.active_requests ∧
    lookupKey rid (process_message now o (.parsed (some rid) (some q) aid tid email rtype rname) s).2.1.active_requests
        = none ∧
    (process_message now o (.parsed (some rid) (some q) aid tid email rtype rname) s).2.2.statusWrites
        = [] ∧
    (process_message now o (.parsed (some rid) (some q) aid tid email rtype rname) s).2.2.completionCalled
        = false := by
  have hg : (truthy (some rid) && truthy (some q)) = true := by
    simp [truthy, hr, hq]
  have hmem : (lookupKey rid s.active_requests).isSome = false := by
    simp [hnone]
  have hstb : ((some st : Option String) = some sCompleted ∨
      (some st : Option String) = some sError) := by
    rcases hst with h | h <;> simp [h]
  have hact : eraseKey rid (eraseKey rid (putKey rid now s.active_requests))
      = s.active_requests := by
    rw [eraseKey_of_lookup_none rid _ (by
      rw [eraseKey_putKey_self rid now s.active_requests hnone]
      exact hnone)]
    exact eraseKey_putKey_self rid now s.active_requests hnone
  simp [process_message, hg, hmem, hread, hst, pmFinally, truthy, hr, hq,
    hact, lookupKey_eraseKey_self, hnone]

/-- Witness for `process_message_status_short_circuit` at a concrete completed
request. -/
theorem process_message_status_short_circuit_witness :
    (¬(ridW = "") ∧ ¬(helloS = "") ∧
      lookupKey ridW sEmptyState.active_requests = none ∧
      (Except.ok (some sCompleted) : Except Unit (Option String))
        = .ok (some sCompleted) ∧
      (sCompleted = sCompleted ∨ sCompleted = sError)) ∧
    (process_message 0 ⟨.ok (some sCompleted), .ok (), .ok (), .ok (), qoOk, foOk, foOk⟩
      (.parsed (some ridW) (some helloS) none none none none none)
      sEmptyState).1 = .action sComplete := by
  refine ⟨⟨by decide, by decide, rfl, rfl, Or.inl rfl⟩, ?_⟩
  exact (process_message_status_short_circuit 0
    ⟨.ok (some sCompleted), .ok (), .ok (), .ok (), qoOk, foOk, foOk⟩
    sEmptyState ridW helloS sCompleted none none none none none
    (by decide) (by decide) rfl rfl (Or.inl rfl)).1

/-! ### C10 — implicit termination trigger -/

/-- Claim C10 (amended): when the lowercased whitespace-separated tokens of the
question include `bye`, `exit` or `end`, `process_question` returns without
ever invoking the completion service; a pool assistant is released (success
result), an absent assistant id yields the plain success goodbye, and a
non-pool assistant is deleted over HTTP — with a success result only when that
deletion succeeds or the assistant is already gone, and an error result
otherwise. -/
theorem process_question_termination (now : Nat) (o : QOracle) (fo : FlushOracle)
    (rid q : String) (aid0 tid0 email rtype rname : Option String)
    (p : PoolState) (pending : List ConvDoc)
    (hterm : isTermination q = true) :
    (process_question now o fo rid q aid0 tid0 email rtype rname p pending
        ⟨[], false⟩).2.2.2.completionCalled = false ∧
    (aid0 = none →
      (process_question now o fo rid q aid0 tid0 email rtype rname p pending
          ⟨[], false⟩).1 = ⟨sSuccess, some sGoodbye, none, none, none⟩) ∧
    (∀ a, aid0 = some a → ¬(a = "") → a ∈ p.assistant_pool →
      (lookupKey a p.assistant_assignments).isSome →
      (process_question now o fo rid q aid0 tid0 email rtype rname p pending
          ⟨[], false⟩).1.status = sSuccess ∧
      lookupKey a (process_question now o fo rid q aid0 tid0 email rtype rname p
          pending ⟨[], false⟩).2.1.assistant_assignments
        = some ⟨none, none, some now, false⟩) ∧
    (∀ a, aid0 = some a → ¬(a = "") → ¬(a ∈ p.assistant_pool) →
      (process_question now o fo rid q aid0 tid0 email rtype rname p pending
          ⟨[], false⟩).1 = (delete_assistant now o (some a) p).1 ∧
      ((process_question now o fo rid q aid0 tid0 email rtype rname p pending
          ⟨[], false⟩).1.status = sSuccess ↔
        (o.deleteHttp = .notFound ∨ o.deleteHttp = .okCode))) := by
  refine ⟨?_, ?_, ?_, ?_⟩
  · cases haid : aid0 with
    | none => simp [process_question, hterm, truthy]
    | some a =>
      by_cases ha : a = ""
      · simp [process_question, hterm, truthy, ha]
      · by_cases hmem : a ∈ p.assistant_pool
        · cases email <;> simp [process_question, hterm, truthy, ha, hmem]
        · rcases hd : delete_assistant now o (some a) p with ⟨r, p1⟩
          simp [process_question, hterm, truthy, ha, hmem, hd]
  · intro haid
    subst haid
    simp [process_question, hterm, truthy]
  · intro a haid ha hmem hsome
    subst haid
    constructor
    · cases email <;> simp [process_question, hterm, truthy, ha, hmem]
    · have hrel : lookupKey a (release_assistant now a p).assistant_assignments
          = some ⟨none, none, some now, false⟩ := by
        rcases Option.isSome_iff_exists.mp hsome with ⟨v, hv⟩
        simp [release_assistant, hsome, lookupKey_modifyKey_self, hv]
      cases hem : email with
      | none => simp [process_question, hterm, truthy, ha, hmem, hrel]
      | some e =>
        simp [process_question, hterm, truthy, ha, hmem]
        have : ({ release_assistant now a p with
            thread_cache := eraseKey e (release_assistant now a p).thread_cache } :
              PoolState).assistant_assignments
            = (release_assistant now a p).assistant_assignments := rfl
        rw [this, hrel]
  · intro a haid ha hmem
    subst haid
    rcases hd : delete_assistant now o (some a) p with ⟨r, p1⟩
    refine ⟨by simp [process_question, hterm, truthy, ha, hmem, hd], ?_⟩
    have hr : r = (delete_assistant now o (some a) p).1 := by rw [hd]
    cases hhttp : o.deleteHttp with
    | notFound =>
      simp [process_question, hterm, truthy, ha, hmem, hd, hr,
        delete_assistant, hhttp]
    | okCode =>
      simp [process_question, hterm, truthy, ha, hmem, hd, hr,
        delete_assistant, hhttp]
    | badCode m =>
      simp [process_question, hterm, truthy, ha, hmem, hd, hr,
        delete_assistant, hhttp, sSuccess, sError]
    | raised m =>
      simp [process_question, hterm, truthy, ha, hmem, hd, hr,
        delete_assistant, hhttp, sSuccess, sError]

/-- Witness for `process_question_termination`: the question `bye` releases
pool assistant `idA1` without invoking the completion service. -/
theorem process_question_termination_witness :
    (isTermination sBye = true ∧ ¬(idA1 = "") ∧ idA1 ∈ poolW.assistant_pool ∧
      (lookupKey idA1 poolW.assistant_assignments).isSome) ∧
    ((process_question 3 qoOk foOk ridW sBye (some idA1) none (some uU) none none
        poolW [] ⟨[], false⟩).2.2.2.completionCalled = false ∧
      (process_question 3 qoOk foOk ridW sBye (some idA1) none (some uU) none none
          poolW [] ⟨[], false⟩).1.status = sSuccess ∧
      lookupKey idA1 (process_question 3 qoOk foOk ridW sBye (some idA1) none
          (some uU) none none poolW [] ⟨[], false⟩).2.1.assistant_assignments
        = some ⟨none, none, some 3, false⟩) := by
  have h := process_question_termination 3 qoOk foOk ridW sBye (some idA1) none
    (some uU) none none poolW [] (by decide)
  have h3 := h.2.2.1 idA1 rfl (by decide) (by decide) (by decide)
  exact ⟨⟨by decide, by decide, by decide, by decide⟩, h.1, h3.1, h3.2⟩

/-- Claim C10 counterexample: a termination question naming a non-pool assistant
whose HTTP deletion raises yields an error result, not the success goodbye the
claim asserts for every termination question. -/
theorem process_question_termination_delete_error :
    (process_question 3 qoDeleteFails foOk ridW sBye (some extA) none none none
        none poolFresh [] ⟨[], false⟩).1.status = sError ∧
    ¬((process_question 3 qoDeleteFails foOk ridW sBye (some extA) none none none
        none poolFresh [] ⟨[], false⟩).1.status = sSuccess) := by
  constructor
  · rfl
  · intro h
    have h' : sError = sSuccess := by
      have hv := h
      rw [show (process_question 3 qoDeleteFails foOk ridW sBye (some extA) none
          none none none poolFresh [] ⟨[], false⟩).1.status = sError from rfl] at hv
      exact hv
    simp [sError, sSuccess] at h'

/-! ### C9 — error transition -/

/-- The run of `process_question` in which a fresh assistant was acquired, a
new thread created, and the completion call raised: the result is the captured
error, the slot is made available again (`in_use := false`, `thread_id` and the
cache entry cleared, `user_email` retained) and the buffer is untouched. -/
theorem process_question_fresh_error (now : Nat) (o : QOracle) (fo : FlushOracle)
    (rid q e m : String) (rtype rname : Option String)
    (p p1 : PoolState) (pending : List ConvDoc) (log : MLog) (aidA : String)
    (hterm : isTermination q = false) (he : ¬(e = ""))
    (hinit : o.initNotFound = false)
    (hresp : o.createResponse = .error m)
    (hacq : get_available_assistant now o.emergency (some e) p
      = (.ok (aidA, none, true), p1)) :
    process_question now o fo rid q none none (some e) rtype rname p pending log
      = (⟨sError, some (sErrHead ++ m), none, some aidA, none⟩,
         ⟨(update_thread_assignment now aidA o.newThreadId e p1).assistant_pool,
          modifyKey aidA (fun v => { v with in_use := false, thread_id := none })
            (update_thread_assignment now aidA o.newThreadId e p1).assistant_assignments,
          eraseKey e (update_thread_assignment now aidA o.newThreadId e p1).thread_cache⟩,
         pending, { log with completionCalled := true }) := by
  simp [process_question, hterm, truthy, he, hacq, hinit, qThreadStep,
    qCompletionStep, hresp, update_thread_assignment, lookupKey_putKey_self]

/-- Claim C9 (amended): when the completion call raises for a request that freshly
acquired a pool slot and created a new thread, `process_message` persists
status `error` with the captured error detail, makes the slot available again
(`in_use := false`) while keeping it in the pool and retaining its
`user_email`, releases the in-flight claim, and acknowledges the message.
(When an already-existing thread was reused, the slot is *not* released — see
the counterexample.) -/
theorem process_message_error_transition (now : Nat) (o : MOracle) (s : ProcState)
    (rid q e m : String) (stt : Option String) (rtype rname : Option String)
    (p1 : PoolState) (v1 : SlotInfo) (aidA : String)
    (hr : ¬(rid = "")) (hq : ¬(q = "")) (hterm : isTermination q = false)
    (hnone : lookupKey rid s.active_requests = none)
    (hread : o.statusRead = .ok stt)
    (hstf : (stt = some sCompleted || stt = some sError) = false)
    (hwp : o.writeProcessing = .ok ()) (hwf : o.writeFinal = .ok ())
    (hinit : o.q.initNotFound = false) (he : ¬(e = ""))
    (hresp : o.q.createResponse = .error m)
    (hacq : get_available_assistant now o.q.emergency (some e) s.pool
      = (.ok (aidA, none, true), p1))
    (hslot : lookupKey aidA p1.assistant_assignments = some v1)
    (haidmem : aidA ∈ s.pool.assistant_pool) :
    (process_message now o (.parsed (some rid) (some q) none none (some e) rtype rname) s).1
        = .action sComplete ∧
    lookupKey rid (process_message now o (.parsed (some rid) (some q) none none (some e) rtype rname) s).2.1.active_requests
        = none ∧
    (process_message now o (.parsed (some rid) (some q) none none (some e) rtype rname) s).2.1.pool.assistant_pool
        = s.pool.assistant_pool ∧
    aidA ∈ (process_message now o (.parsed (some rid) (some q) none none (some e) rtype rname) s).2.1.pool.assistant_pool ∧
    lookupKey aidA (process_message now o (.parsed (some rid) (some q) none none (some e) rtype rname) s).2.1.pool.assistant_assignments
        = some ⟨v1.user_email, none, some now, false⟩ ∧
    (process_message now o (.parsed (some rid) (some q) none none (some e) rtype rname) s).2.2.statusWrites
        = [(rid, sProcessing, none),
           (rid, sError, some ⟨sError, some (sErrHead ++ m), none, some aidA, none⟩)] := by
  have hg : (truthy (some rid) && truthy (some q)) = true := by
    simp [truthy, hr, hq]
  have hmem : (lookupKey rid s.active_requests).isSome = false := by
    simp [hnone]
  have hpq := process_question_fresh_error now o.q o.flush1 rid q e m
    (some (rtype.getD sDefaultRequestType)) rname s.pool p1 s.pending
    ⟨[(rid, sProcessing, none)], false⟩ aidA hterm he hinit hresp hacq
  have hnes : ¬(sError = sSuccess) := by decide
  have hpool1 : p1.assistant_pool = s.pool.assistant_pool := by
    have := get_available_assistant_pool_inv now o.q.emergency (some e) s.pool
    rw [hacq] at this
    exact this
  have hlook : lookupKey aidA
      (modifyKey aidA (fun v => { v with in_use := false, thread_id := none })
        (update_thread_assignment now aidA o.q.newThreadId e p1).assistant_assignments)
      = some ⟨v1.user_email, none, some now, false⟩ := by
    simp [update_thread_assignment, lookupKey_modifyKey_self, hslot]
  refine ⟨?_, ?_, ?_, ?_, ?_, ?_⟩ <;>
    simp [process_message, hg, hmem, hread, hstf, hwp, hwf, hpq, pmFinally,
      truthy, hr, hq, hnes, lookupKey_eraseKey_self,
      update_thread_assignment_pool_inv, hpool1, haidmem, hlook]

/-- Witness for `process_message_error_transition`: a fresh caller, a failing
completion call, and the slot back to available with the claim released. -/
theorem process_message_error_transition_witness :
    (¬(ridW = "") ∧ ¬(helloS = "") ∧ isTermination helloS = false ∧
      lookupKey ridW sFresh.active_requests = none ∧
      moRespFails.statusRead = .ok none ∧
      (((none : Option String) = some sCompleted ||
          (none : Option String) = some sError) = false) ∧
      moRespFails.writeProcessing = .ok () ∧ moRespFails.writeFinal = .ok () ∧
      moRespFails.q.initNotFound = false ∧ ¬(uU = "") ∧
      moRespFails.q.createResponse = .error boomS ∧
      get_available_assistant 7 moRespFails.q.emergency (some uU) sFresh.pool
        = (.ok (idA1, none, true), p1W) ∧
      lookupKey idA1 p1W.assistant_assignments = some ⟨some uU, none, some 7, true⟩ ∧
      idA1 ∈ sFresh.pool.assistant_pool) ∧
    ((process_message 7 moRespFails
        (.parsed (some ridW) (some helloS) none none (some uU) none none) sFresh).1
        = .action sComplete ∧
      lookupKey idA1 (process_message 7 moRespFails
        (.parsed (some ridW) (some helloS) none none (some uU) none none)
          sFresh).2.1.pool.assistant_assignments
        = some ⟨some uU, none, some 7, false⟩) := by
  have h := process_message_error_transition 7 moRespFails sFresh ridW helloS uU
    boomS none none none p1W ⟨some uU, none, some 7, true⟩ idA1
    (by decide) (by decide) (by decide) rfl rfl (by decide) rfl rfl rfl
    (by decide) rfl rfl rfl (by decide)
  exact ⟨⟨by decide, by decide, by decide, rfl, rfl, by decide, rfl, rfl, rfl,
    by decide, rfl, rfl, rfl, by decide⟩, h.1, h.2.2.2.2.1⟩

/-- Claim C9 counterexample: when the failing request *reused* a valid cached thread
(`new_thread_created` is false), the error transition does not release the
slot — `in_use` stays `true` — even though status `error` is persisted and the
message acknowledged, contrary to the claim's "for every request". -/
theorem process_message_error_reused_thread_keeps_in_use :
    (process_message 10 moRespFails
        (.parsed (some ridW) (some helloS) none none (some uU) none none) sC9).1
      = .action sComplete ∧
    (process_message 10 moRespFails
        (.parsed (some ridW) (some helloS) none none (some uU) none none)
          sC9).2.2.statusWrites
      = [(ridW, sProcessing, none),
         (ridW, sError, some ⟨sError, some (sErrHead ++ boomS), none, some idA1, none⟩)] ∧
    (lookupKey idA1 (process_message 10 moRespFails
        (.parsed (some ridW) (some helloS) none none (some uU) none none)
          sC9).2.1.pool.assistant_assignments).map SlotInfo.in_use
      = some true := by
  refine ⟨rfl, rfl, rfl⟩

/-! ### C6 — Scenario A: preemptive LRU eviction -/

/-- Claim C6: with pool capacity 2, three distinct callers acquiring in sequence
(`t1 < t2`, no releases): the first two acquisitions hand out the two slots,
and the third call returns the slot with the oldest `last_used` — the first
caller's slot `idA1`, even though it is `in_use` — and overwrites its
`user_email` with the third caller's identity. -/
theorem scenarioA_lru_eviction (c1 c2 c3 th1 th2 : String) (t1 t2 t3 : Nat)
    (h21 : ¬(c2 = c1)) (h31 : ¬(c3 = c1)) (h32 : ¬(c3 = c2))
    (h12 : t1 < t2) :
    (get_available_assistant t1 (.ok emW) (some c1) poolTwo).1
        = .ok (idA1, none, true) ∧
    (get_available_assistant t2 (.ok emW) (some c2)
        (update_thread_assignment t1 idA1 th1 c1
          (get_available_assistant t1 (.ok emW) (some c1) poolTwo).2)).1
        = .ok (idA2, none, true) ∧
    (get_available_assistant t3 (.ok emW) (some c3)
        (scenarioAState c1 c2 th1 th2 t1 t2)).1
        = .ok (idA1, none, true) ∧
    lookupKey idA1 (get_available_assistant t3 (.ok emW) (some c3)
        (scenarioAState c1 c2 th1 th2 t1 t2)).2.assistant_assignments
        = some ⟨some c3, none, some t3, true⟩ := by
  have h12' : ¬(c1 = c2) := fun h => h21 h.symm
  have h13' : ¬(c1 = c3) := fun h => h31 h.symm
  have h23' : ¬(c2 = c3) := fun h => h32 h.symm
  have hA21 : ¬(idA2 = idA1) := by decide
  have hA12 : ¬(idA1 = idA2) := by decide
  have hlt : ¬(t2 < t1) := Nat.lt_asymm h12
  have e1 : get_available_assistant t1 (.ok emW) (some c1) poolTwo
      = (.ok (idA1, none, true),
         ⟨[idA1, idA2], [(idA1, ⟨some c1, none, some t1, true⟩), (idA2, freshSlot)],
          []⟩) := by
    simp [get_available_assistant, threadCacheCheck, poolTwo, poolAcquire,
      lookupKey, List.find?, modifyKey, freshSlot, hA21]
  have e2 : update_thread_assignment t1 idA1 th1 c1
      (⟨[idA1, idA2], [(idA1, ⟨some c1, none, some t1, true⟩), (idA2, freshSlot)],
        []⟩ : PoolState)
      = ⟨[idA1, idA2],
         [(idA1, ⟨some c1, some th1, some t1, true⟩), (idA2, freshSlot)],
         [(c1, ⟨idA1, th1, t1⟩)]⟩ := by
    simp [update_thread_assignment, modifyKey, putKey, hA21]
  have e3 : get_available_assistant t2 (.ok emW) (some c2)
      (⟨[idA1, idA2],
        [(idA1, ⟨some c1, some th1, some t1, true⟩), (idA2, freshSlot)],
        [(c1, ⟨idA1, th1, t1⟩)]⟩ : PoolState)
      = (.ok (idA2, none, true),
         ⟨[idA1, idA2],
          [(idA1, ⟨some c1, some th1, some t1, true⟩),
           (idA2, ⟨some c2, none, some t2, true⟩)],
          [(c1, ⟨idA1, th1, t1⟩)]⟩) := by
    simp [get_available_assistant, threadCacheCheck, poolAcquire, lookupKey,
      List.find?, modifyKey, freshSlot, hA12, h12']
  have e4 : update_thread_assignment t2 idA2 th2 c2
      (⟨[idA1, idA2],
        [(idA1, ⟨some c1, some th1, some t1, true⟩),
         (idA2, ⟨some c2, none, some t2, true⟩)],
        [(c1, ⟨idA1, th1, t1⟩)]⟩ : PoolState)
      = ⟨[idA1, idA2],
         [(idA1, ⟨some c1, some th1, some t1, true⟩),
          (idA2, ⟨some c2, some th2, some t2, true⟩)],
         [(c1, ⟨idA1, th1, t1⟩), (c2, ⟨idA2, th2, t2⟩)]⟩ := by
    simp [update_thread_assignment, modifyKey, putKey, hA12, h12']
  have e5 : scenarioAState c1 c2 th1 th2 t1 t2
      = ⟨[idA1, idA2],
         [(idA1, ⟨some c1, some th1, some t1, true⟩),
          (idA2, ⟨some c2, some th2, some t2, true⟩)],
         [(c1, ⟨idA1, th1, t1⟩), (c2, ⟨idA2, th2, t2⟩)]⟩ := by
    rw [scenarioAState]
    rw [e1]
    rw [show ((Except.ok (idA1, (none : Option String), true),
        (⟨[idA1, idA2], [(idA1, ⟨some c1, none, some t1, true⟩), (idA2, freshSlot)],
          []⟩ : PoolState)) :
        Except String (String × Option String × Bool) × PoolState).2
      = (⟨[idA1, idA2], [(idA1, ⟨some c1, none, some t1, true⟩), (idA2, freshSlot)],
          []⟩ : PoolState) from rfl]
    rw [e2, e3]
    exact e4
  have e6 : get_available_assistant t3 (.ok emW) (some c3)
      (⟨[idA1, idA2],
        [(idA1, ⟨some c1, some th1, some t1, true⟩),
         (idA2, ⟨some c2, some th2, some t2, true⟩)],
        [(c1, ⟨idA1, th1, t1⟩), (c2, ⟨idA2, th2, t2⟩)]⟩ : PoolState)
      = (.ok (idA1, none, true),
         ⟨[idA1, idA2],
          [(idA1, ⟨some c3, none, some t3, true⟩),
           (idA2, ⟨some c2, some th2, some t2, true⟩)],
          [(c1, ⟨idA1, th1, t1⟩), (c2, ⟨idA2, th2, t2⟩)]⟩) := by
    simp [get_available_assistant, threadCacheCheck, poolAcquire, lookupKey,
      List.find?, lruSelect, modifyKey, hA21, hA12, h12', h13', h23', hlt]
  refine ⟨by rw [e1], ?_, ?_, ?_⟩
  · rw [show (get_available_assistant t1 (.ok emW) (some c1) poolTwo).2
        = (⟨[idA1, idA2], [(idA1, ⟨some c1, none, some t1, true⟩), (idA2, freshSlot)],
            []⟩ : PoolState) by rw [e1]]
    rw [e2, e3]
  · rw [e5, e6]
  · rw [e5, e6]
    simp [lookupKey]

/-- Witness for `scenarioA_lru_eviction` with callers alice, bob, carol at
times 1, 2, 3. -/
theorem scenarioA_lru_eviction_witness :
    (¬(cBob = cAlice) ∧ ¬(cCarol = cAlice) ∧ ¬(cCarol = cBob) ∧ (1 : Nat) < 2) ∧
    ((get_available_assistant 3 (.ok emW) (some cCarol)
        (scenarioAState cAlice cBob thA thNew 1 2)).1 = .ok (idA1, none, true) ∧
      lookupKey idA1 (get_available_assistant 3 (.ok emW) (some cCarol)
        (scenarioAState cAlice cBob thA thNew 1 2)).2.assistant_assignments
        = some ⟨some cCarol, none, some 3, true⟩) := by
  have h := scenarioA_lru_eviction cAlice cBob cCarol thA thNew 1 2 3
    (by decide) (by decide) (by decide) (by decide)
  exact ⟨⟨by decide, by decide, by decide, by decide⟩, h.2.2.1, h.2.2.2⟩

/-! ### C1 — exclusive assignment -/

theorem noConflicts_iff (l : List (String × SlotInfo)) :
    noConflicts l = true ↔ l.Pairwise (fun p q => slotsConflict p q = false) := by
  induction l with
  | nil => simp [noConflicts]
  | cons p rest ih =>
    simp [noConflicts, List.all_eq_true, List.pairwise_cons, ih, and_comm]

theorem slotsConflict_congr (p p' q q' : String × SlotInfo)
    (hp1 : (p'.2).in_use = (p.2).in_use) (hp2 : (p'.2).user_email = (p.2).user_email)
    (hq1 : (q'.2).in_use = (q.2).in_use) (hq2 : (q'.2).user_email = (q.2).user_email) :
    slotsConflict p' q' = slotsConflict p q := by
  simp [slotsConflict, hp1, hp2, hq1, hq2]

/-- `modifyKey` with a field-preserving update (only `thread_id` / `last_used`
change) cannot create a conflict. -/
theorem noConflicts_modifyKey_preserve (k : String) (f : SlotInfo → SlotInfo)
    (l : List (String × SlotInfo))
    (hf1 : ∀ v, (f v).in_use = v.in_use) (hf2 : ∀ v, (f v).user_email = v.user_email)
    (h : noConflicts l = true) : noConflicts (modifyKey k f l) = true := by
  rw [noConflicts_iff] at h ⊢
  rw [modifyKey_eq_map, List.pairwise_map]
  refine h.imp ?_
  intro a b hab
  have ha1 : ((if a.1 = k then (a.1, f a.2) else a).2).in_use = (a.2).in_use := by
    by_cases ha : a.1 = k <;> simp [ha, hf1]
  have ha2 : ((if a.1 = k then (a.1, f a.2) else a).2).user_email = (a.2).user_email := by
    by_cases ha : a.1 = k <;> simp [ha, hf2]
  have hb1 : ((if b.1 = k then (b.1, f b.2) else b).2).in_use = (b.2).in_use := by
    by_cases hb : b.1 = k <;> simp [hb, hf1]
  have hb2 : ((if b.1 = k then (b.1, f b.2) else b).2).user_email = (b.2).user_email := by
    by_cases hb : b.1 = k <;> simp [hb, hf2]
  rw [slotsConflict_congr a _ b _ ha1 ha2 hb1 hb2]
  exact hab

/-- `modifyKey` writing a not-in-use value (release, error cleanup) cannot
create a conflict. -/
theorem noConflicts_modifyKey_release (k : String) (f : SlotInfo → SlotInfo)
    (l : List (String × SlotInfo))
    (hf : ∀ v, (f v).in_use = false)
    (h : noConflicts l = true) : noConflicts (modifyKey k f l) = true := by
  rw [noConflicts_iff] at h ⊢
  rw [modifyKey_eq_map, List.pairwise_map]
  refine h.imp ?_
  intro a b hab
  by_cases ha : a.1 = k
  · simp [ha, slotsConflict, hf]
  · by_cases hb : b.1 = k
    · simp [ha, hb, slotsConflict, hf]
    · simpa [ha, hb] using hab

/-- Assigning a slot to caller `c` keeps the table conflict-free provided no
slot is currently in use by `c` (and keys are distinct). -/
theorem noConflicts_modifyKey_assign (k c : String) (now : Nat)
    (l : List (String × SlotInfo))
    (hnd : (l.map Prod.fst).Nodup)
    (hown : ∀ p ∈ l, ¬((p.2).in_use = true ∧ (p.2).user_email = some c))
    (h : noConflicts l = true) :
    noConflicts (modifyKey k (fun _ => ⟨some c, none, some now, true⟩) l) = true := by
  rw [noConflicts_iff] at h ⊢
  rw [modifyKey_eq_map, List.pairwise_map]
  have hnd' : l.Pairwise (fun a b => a.1 ≠ b.1) := List.pairwise_map.mp hnd
  refine (h.and hnd').imp_of_mem ?_
  intro a b ha hb hab
  obtain ⟨hconf, hne⟩ := hab
  by_cases hak : a.1 = k
  · by_cases hbk : b.1 = k
    · exact absurd (hak.trans hbk.symm) hne
    · have hb' := hown b hb
      simp only [hak, hbk, if_pos rfl, if_neg hbk]
      simp [slotsConflict]
      intro hbu
      intro habs
      exact hb' ⟨hbu, habs.symm⟩
  · by_cases hbk : b.1 = k
    · have ha' := hown a ha
      simp only [hak, hbk, if_neg hak, if_pos rfl]
      simp [slotsConflict]
      intro hau hsome habs
      exact ha' ⟨hau, habs⟩
    · simpa [hak, hbk] using hconf

theorem noOwnedSlot_spec (e : String) (s : PoolState) (hown : noOwnedSlot e s = true) :
    ∀ p ∈ s.assistant_assignments,
      ¬((p.2).in_use = true ∧ (p.2).user_email = some e) := by
  intro p hp
  have := (List.all_eq_true.mp hown) p hp
  intro hc
  simp [hc.1, hc.2] at this

/-- The three outcomes of the thread-cache phase. -/
theorem threadCacheCheck_cases (now : Nat) (e : String) (s : PoolState) :
    (lookupKey e s.thread_cache = none ∧
      threadCacheCheck now (some e) s = (none, s)) ∨
    (∃ entry, lookupKey e s.thread_cache = some entry ∧
      THREAD_LIFETIME_SECONDS < now - entry.created_at ∧
      threadCacheCheck now (some e) s
        = (none, ⟨s.assistant_pool, s.assistant_assignments,
            eraseKey e s.thread_cache⟩)) ∨
    (∃ entry, lookupKey e s.thread_cache = some entry ∧
      ¬(THREAD_LIFETIME_SECONDS < now - entry.created_at) ∧
      threadCacheCheck now (some e) s
        = (some (entry.assistant_id, entry.thread_id),
           ⟨s.assistant_pool,
            modifyKey entry.assistant_id (fun v => { v with last_used := some now })
              s.assistant_assignments,
            s.thread_cache⟩)) := by
  rcases hl : lookupKey e s.thread_cache with _ | ⟨entry⟩
  · exact Or.inl ⟨rfl, by simp [threadCacheCheck, hl]⟩
  · by_cases hexp : THREAD_LIFETIME_SECONDS < now - entry.created_at
    · exact Or.inr (Or.inl ⟨entry, rfl, hexp, by simp [threadCacheCheck, hl, hexp]⟩)
    · exact Or.inr (Or.inr ⟨entry, rfl, hexp, by simp [threadCacheCheck, hl, hexp]⟩)

/-- One safe pool operation preserves exclusivity and key-distinctness. -/
theorem exclusive_step (s : PoolState) (op : PoolOp)
    (hnd : (s.assistant_assignments.map Prod.fst).Nodup)
    (hex : exclusiveAssignment s) (hsafe : safeOp s op = true) :
    exclusiveAssignment (applyOp s op) ∧
    ((applyOp s op).assistant_assignments.map Prod.fst).Nodup := by
  cases op with
  | updateThread now a t e =>
    refine ⟨?_, ?_⟩
    · exact noConflicts_modifyKey_preserve a
        (fun v => { v with thread_id := some t, last_used := some now })
        s.assistant_assignments (fun v => rfl) (fun v => rfl) hex
    · rw [show (applyOp s (.updateThread now a t e)).assistant_assignments
          = modifyKey a (fun v => { v with thread_id := some t, last_used := some now })
            s.assistant_assignments from rfl, map_fst_modifyKey]
      exact hnd
  | release now a =>
    by_cases hp : (lookupKey a s.assistant_assignments).isSome
    · have happ : (applyOp s (.release now a)).assistant_assignments
          = modifyKey a (fun _ => (⟨none, none, some now, false⟩ : SlotInfo))
            s.assistant_assignments := by
        simp [applyOp, release_assistant, hp]
      constructor
      · show noConflicts (applyOp s (.release now a)).assistant_assignments = true
        rw [happ]
        exact noConflicts_modifyKey_release a
          (fun _ => (⟨none, none, some now, false⟩ : SlotInfo))
          s.assistant_assignments (fun v => rfl) hex
      · rw [happ, map_fst_modifyKey]
        exact hnd
    · have happ : applyOp s (.release now a) = s := by
        simp [applyOp, release_assistant, hp]
      rw [happ]
      exact ⟨hex, hnd⟩
  | acquire now e =>
    have hpool : ∀ s' : PoolState, s'.assistant_assignments = s.assistant_assignments →
        noOwnedSlot e s' = true →
        exclusiveAssignment (poolAcquire now (.ok emW) (some e) s').2 ∧
        (((poolAcquire now (.ok emW) (some e) s').2.assistant_assignments).map
          Prod.fst).Nodup := by
      intro s' hsame hown
      have hnd' : (s'.assistant_assignments.map Prod.fst).Nodup := by
        rw [hsame]; exact hnd
      have hex' : noConflicts s'.assistant_assignments = true := by
        rw [hsame]; exact hex
      have hown' := noOwnedSlot_spec e s' hown
      simp only [poolAcquire]
      rcases hf : s'.assistant_pool.find? (fun aid =>
          match lookupKey aid s'.assistant_assignments with
          | some info => !info.in_use
          | none => false) with _ | ⟨aid⟩
      · rcases hl : lruSelect s' with _ | ⟨aid⟩
        · exact ⟨hex', hnd'⟩
        · refine ⟨noConflicts_modifyKey_assign aid e now _ hnd' hown' hex', ?_⟩
          rw [map_fst_modifyKey]
          exact hnd'
      · refine ⟨noConflicts_modifyKey_assign aid e now _ hnd' hown' hex', ?_⟩
        rw [map_fst_modifyKey]
        exact hnd'
    rcases threadCacheCheck_cases now e s with ⟨hl, hcc⟩ | ⟨entry, hl, hexp, hcc⟩ |
      ⟨entry, hl, hexp, hcc⟩
    · -- cache miss: pool acquisition on the unchanged state
      have happ : applyOp s (.acquire now e)
          = (poolAcquire now (.ok emW) (some e) s).2 := by
        simp [applyOp, get_available_assistant, hcc]
      rw [happ]
      have hcv : cacheValidB now e s = false := by simp [cacheValidB, hl]
      have hown : noOwnedSlot e s = true := by
        have hh := hsafe
        simp only [safeOp, hcv, Bool.false_or] at hh
        exact hh
      exact hpool s rfl hown
    · -- expired entry: cache eviction, then pool acquisition
      have happ : applyOp s (.acquire now e)
          = (poolAcquire now (.ok emW) (some e)
              ⟨s.assistant_pool, s.assistant_assignments,
               eraseKey e s.thread_cache⟩).2 := by
        simp [applyOp, get_available_assistant, hcc]
      rw [happ]
      have hcv : cacheValidB now e s = false := by simp [cacheValidB, hl, hexp]
      have hown : noOwnedSlot e s = true := by
        have hh := hsafe
        simp only [safeOp, hcv, Bool.false_or] at hh
        exact hh
      exact hpool _ rfl hown
    · -- valid entry: only `last_used` is stamped
      have happ : applyOp s (.acquire now e)
          = ⟨s.assistant_pool,
             modifyKey entry.assistant_id (fun v => { v with last_used := some now })
               s.assistant_assignments,
             s.thread_cache⟩ := by
        simp [applyOp, get_available_assistant, hcc]
      rw [happ]
      constructor
      · exact noConflicts_modifyKey_preserve entry.assistant_id
          (fun v => { v with last_used := some now }) s.assistant_assignments
          (fun v => rfl) (fun v => rfl) hex
      · rw [show (⟨s.assistant_pool,
            modifyKey entry.assistant_id (fun v => { v with last_used := some now })
              s.assistant_assignments,
            s.thread_cache⟩ : PoolState).assistant_assignments
          = modifyKey entry.assistant_id (fun v => { v with last_used := some now })
              s.assistant_assignments from rfl, map_fst_modifyKey]
        exact hnd

/-- Claim C1 (amended): exclusive assignment holds along every trace of pool calls
in which each acquisition happens for a caller that either has a valid cache
entry or holds no in-use slot.  (Acquiring a fresh slot for a caller whose
previous slot is still assigned — cache expired or never registered — *does*
produce a second slot for that caller: see the counterexample.) -/
theorem exclusive_assignment_safe_traces (ops : List PoolOp) (s : PoolState)
    (hnd : (s.assistant_assignments.map Prod.fst).Nodup)
    (hex : exclusiveAssignment s) (hsafe : safeTrace s ops = true) :
    exclusiveAssignment (runOps s ops) := by
  induction ops generalizing s with
  | nil => exact hex
  | cons op rest ih =>
    have h12 : safeOp s op = true ∧ safeTrace (applyOp s op) rest = true := by
      simpa [safeTrace, Bool.and_eq_true] using hsafe
    have hstep := exclusive_step s op hnd hex h12.1
    exact ih (applyOp s op) hstep.2 hstep.1 h12.2

/-- Witness for `exclusive_assignment_safe_traces`: acquire, register, release,
re-acquire for the same caller is a safe trace and stays exclusive. -/
theorem exclusive_assignment_safe_traces_witness :
    ((poolTwo.assistant_assignments.map Prod.fst).Nodup ∧
      exclusiveAssignment poolTwo ∧
      safeTrace poolTwo
        [.acquire 1 uU, .updateThread 1 idA1 thA uU, .release 2 idA1,
         .acquire 3 uU] = true) ∧
    exclusiveAssignment (runOps poolTwo
      [.acquire 1 uU, .updateThread 1 idA1 thA uU, .release 2 idA1,
       .acquire 3 uU]) := by
  refine ⟨⟨by decide, by decide, by decide⟩, ?_⟩
  exact exclusive_assignment_safe_traces _ poolTwo (by decide) (by decide) (by decide)

/-- Claim C1 counterexample: caller `uU` acquires a slot, registers a thread, and —
after the entry's TTL has expired — acquires again; the expired-cache path
assigns a second slot while the first is still `in_use` for `uU`, so two slots
are simultaneously assigned to the same caller. -/
theorem exclusive_assignment_violated :
    lookupKey idA1 (runOps poolTwo
        [.acquire 0 uU, .updateThread 0 idA1 thA uU, .acquire 90000 uU]).assistant_assignments
      = some ⟨some uU, some thA, some 0, true⟩ ∧
    lookupKey idA2 (runOps poolTwo
        [.acquire 0 uU, .updateThread 0 idA1 thA uU, .acquire 90000 uU]).assistant_assignments
      = some ⟨some uU, none, some 90000, true⟩ ∧
    ¬ exclusiveAssignment (runOps poolTwo
        [.acquire 0 uU, .updateThread 0 idA1 thA uU, .acquire 90000 uU]) := by
  refine ⟨by decide, by decide, by decide⟩

end QueueProcessor
